import Mathlib

/-!
Shallow embedding of the attendance backend (src/main.py, src/schemas.py).

The store (MongoDB) is modelled as in-memory lists of documents; ObjectId
validity is the 24-hex-character string format accepted by bson.ObjectId
for string input.  Floating-point numbers are modelled as real numbers.
Errors raised as HTTPException are modelled with an Except carrying the
HTTP status code and detail string.
-/

/-- HTTP error response: status code plus detail message, as raised by
HTTPException in the handlers. -/
structure ErrResp where
  code : Nat
  detail : String
deriving DecidableEq

/-- Employee document as stored in the employee collection
(schemas.Employee plus the store-generated id and creation timestamp). -/
structure Employee where
  id : String
  name : String
  email : String
  role : Option String
  phone : Option String
  is_active : Bool
  created_at : Nat

/-- Shaped employee payload returned by the list endpoint (EmployeeOut). -/
structure EmployeeOut where
  id : String
  name : String
  email : String
  role : Option String
  phone : Option String
  is_active : Bool
deriving DecidableEq

/-- Attendance document as stored in the attendance collection
(schemas.Attendance plus the store-generated id). -/
structure AttendanceRec where
  id : String
  employee_id : String
  date : String
  status : String
  lat : Option ℝ
  lng : Option ℝ
  distance_m : Option ℝ

/-- The whole store: the employee and attendance collections. -/
structure DB where
  employees : List Employee
  attendance : List AttendanceRec

/-- Body of POST attendance mark (AttendanceMarkIn). -/
structure MarkPayload where
  employee_id : String
  lat : Option ℝ
  lng : Option ℝ

/-- Process-wide configuration read from the environment at startup:
OFFICE_LAT, OFFICE_LNG, GEOFENCE_M. -/
structure Config where
  OFFICE_LAT : ℝ
  OFFICE_LNG : ℝ
  GEOFENCE_M : ℝ

/-- Hexadecimal digit, as accepted inside a textual ObjectId. -/
def isHexChar (c : Char) : Bool :=
  c.isDigit || (('a' ≤ c) && (c ≤ 'f')) || (('A' ≤ c) && (c ≤ 'F'))

/-- A string is accepted by the ObjectId constructor exactly when it is a
24-character hexadecimal string; otherwise the constructor throws and the
handler answers 400. -/
def isValidObjectId (s : String) : Bool :=
  s.length == 24 && s.toList.all isHexChar

/-- Degrees to radians, math.radians. -/
noncomputable def radians (x : ℝ) : ℝ := x * Real.pi / 180

/-- Two-argument arctangent, math.atan2 (quadrant-aware). -/
noncomputable def atan2 (y x : ℝ) : ℝ :=
  if 0 < x then Real.arctan (y / x)
  else if x < 0 ∧ 0 ≤ y then Real.arctan (y / x) + Real.pi
  else if x < 0 then Real.arctan (y / x) - Real.pi
  else if 0 < y then Real.pi / 2
  else if y < 0 then -(Real.pi / 2)
  else 0

/-- Great-circle distance in meters, haversine_m from src/main.py. -/
noncomputable def haversine_m (lat1 lon1 lat2 lon2 : ℝ) : ℝ :=
  let R : ℝ := 6371000
  let dlat := radians (lat2 - lat1)
  let dlon := radians (lon2 - lon1)
  let a := Real.sin (dlat / 2) ^ 2 +
    Real.cos (radians lat1) * Real.cos (radians lat2) * Real.sin (dlon / 2) ^ 2
  let c := 2 * atan2 (Real.sqrt a) (Real.sqrt (1 - a))
  R * c

/-- Presence verdict used at line 150 of src/main.py:
present when the distance is within the geofence radius, else absent. -/
noncomputable def classify (d r : ℝ) : String :=
  if d ≤ r then "present" else "absent"

/-- Geofence evaluation of lines 146-150 of src/main.py: distance and
status stay (none, absent) unless both coordinates were submitted and the
office coordinates are not both zero. -/
noncomputable def evalGeofence (cfg : Config) (lat lng : Option ℝ) :
    Option ℝ × String :=
  match lat, lng with
  | some la, some ln =>
    if cfg.OFFICE_LAT ≠ 0 ∨ cfg.OFFICE_LNG ≠ 0 then
      let d := haversine_m cfg.OFFICE_LAT cfg.OFFICE_LNG la ln
      (some d, classify d cfg.GEOFENCE_M)
    else (none, "absent")
  | _, _ => (none, "absent")

/-- find_one on the employee collection filtering on _id and is_active,
line 138 of src/main.py. -/
def findActiveEmployee (db : DB) (eid : String) : Option Employee :=
  db.employees.find? (fun e => e.id == eid && e.is_active)

/-- find_one on the employee collection by _id only (no is_active filter),
line 176 of src/main.py. -/
def findEmployee (db : DB) (eid : String) : Option Employee :=
  db.employees.find? (fun e => e.id == eid)

/-- POST /attendance/mark (mark_attendance in src/main.py): validate the
id, require an active employee, evaluate the geofence, insert the record.
The current date and the generated record id are inputs of the model. -/
noncomputable def mark_attendance (cfg : Config) (db : DB)
    (today newId : String) (p : MarkPayload) :
    Except ErrResp (AttendanceRec × DB) :=
  if isValidObjectId p.employee_id then
    match findActiveEmployee db p.employee_id with
    | none => .error ⟨404, "Employee not found or inactive"⟩
    | some _ =>
      let ds := evalGeofence cfg p.lat p.lng
      let att : AttendanceRec :=
        ⟨newId, p.employee_id, today, ds.2, p.lat, p.lng, ds.1⟩
      .ok (att, { db with attendance := db.attendance ++ [att] })
  else .error ⟨400, "Invalid employee id"⟩

/-- Soft delete applied by update_one with an _id filter: deactivate the
first (the unique, since _id is a key) matching document. -/
def deactivateFirst (l : List Employee) (eid : String) : List Employee :=
  match l with
  | [] => []
  | e :: rest =>
    if e.id == eid then { e with is_active := false } :: rest
    else e :: deactivateFirst rest eid

/-- DELETE /employees/{id} (remove_employee in src/main.py): 400 on a
malformed id, 404 when no document matches, else set is_active false. -/
def remove_employee (db : DB) (eid : String) : Except ErrResp DB :=
  if isValidObjectId eid then
    if db.employees.any (fun e => e.id == eid) then
      .ok { db with employees := deactivateFirst db.employees eid }
    else .error ⟨404, "Employee not found"⟩
  else .error ⟨400, "Invalid employee id"⟩

/-- PCRE metacharacters honored by the regex operator of the store; a
pattern free of all of these is matched purely literally. -/
def isRegexMeta (c : Char) : Bool :=
  c == '.' || c == '*' || c == '+' || c == '?' || c == '[' || c == ']' ||
  c == '(' || c == ')' || c == '{' || c == '}' || c == '|' || c == '^' ||
  c == '$' || c == '\\'

/-- One pattern character against one text character: the regular
expression wildcard dot matches anything, any other character matches
case-insensitively (the i option of the filter).  This embeds only the
literal-plus-dot fragment of the PCRE patterns the store accepts; the
other metacharacters of isRegexMeta are not modelled, so nothing is
claimed for patterns containing them. -/
def charMatch (p c : Char) : Bool := p == '.' || p.toLower == c.toLower

/-- Does the pattern match at the head of the text.  Models the fragment
of the PCRE patterns handled by the regex operator of the store for
patterns built from literal characters and the dot wildcard. -/
def matchHere : List Char → List Char → Bool
  | [], _ => true
  | _ :: _, [] => false
  | p :: ps, c :: cs => charMatch p c && matchHere ps cs

/-- Does the pattern match somewhere in the text (unanchored search, the
containment semantics of the regex filter operator of the store). -/
def searchIn (pat : List Char) : List Char → Bool
  | [] => matchHere pat []
  | c :: cs => matchHere pat (c :: cs) || searchIn pat cs

/-- Case-insensitive regex containment over whole strings.  Agrees with
the regex filter of the store exactly on patterns whose characters are
literals or the dot wildcard; claims quantifying over search terms are
therefore stated only for metacharacter-free terms. -/
def ciRegexMatch (pat s : String) : Bool :=
  searchIn pat.toList s.toList

/-- Case-insensitive character equality, the comparison underlying the
substring notion the spec describes. -/
def charEqCI (a b : Char) : Bool := a.toLower == b.toLower

/-- Case-insensitive literal match at the head of the text. -/
def isPrefOf : List Char → List Char → Bool
  | [], _ => true
  | _ :: _, [] => false
  | a :: as, b :: bs => charEqCI a b && isPrefOf as bs

/-- Case-insensitive literal containment somewhere in the text. -/
def isSubOf (p : List Char) : List Char → Bool
  | [] => isPrefOf p []
  | c :: cs => isPrefOf p (c :: cs) || isSubOf p cs

/-- Stated from the spec for comparison with the implementation: the
spec describes the listing filter as a case-insensitive substring match
of the search term in a text field. -/
def specSubstrCI (hay needle : String) : Bool :=
  isSubOf needle.toList hay.toList

/-- Filter applied by the employee listing for a query term q: active
documents only, and when q is truthy (present and non-empty) the name or
the email must match q as a case-insensitive regex. -/
def empMatches (q : Option String) (e : Employee) : Bool :=
  e.is_active &&
    match q with
    | none => true
    | some s => if s = "" then true else ciRegexMatch s e.name || ciRegexMatch s e.email

/-- Ordering used by the listing: descending creation time. -/
def createdDesc (a b : Employee) : Prop := b.created_at ≤ a.created_at

instance : DecidableRel createdDesc := fun a b => Nat.decLe b.created_at a.created_at

instance : IsTotal Employee createdDesc :=
  ⟨fun a b => Nat.le_total b.created_at a.created_at⟩

instance : IsTrans Employee createdDesc :=
  ⟨fun _ _ _ h h' => Nat.le_trans h' h⟩

/-- The docs cursor of GET /employees: filtered documents sorted by
created_at descending (line 104 of src/main.py). -/
def listDocs (db : DB) (q : Option String) : List Employee :=
  (db.employees.filter (empMatches q)).insertionSort createdDesc

/-- Shape a stored employee document into the response payload. -/
def toOut (e : Employee) : EmployeeOut :=
  ⟨e.id, e.name, e.email, e.role, e.phone, e.is_active⟩

/-- GET /employees (list_employees in src/main.py). -/
def list_employees (db : DB) (q : Option String) : List EmployeeOut :=
  (listDocs db q).map toOut

/-- One record of the daily roster response. -/
structure RosterEntry where
  id : String
  employee_id : String
  employee_name : Option String
  status : String
  date : String
  distance_m : Option ℝ

/-- Build one roster entry (lines 176-184 of src/main.py): when the
record's employee_id is truthy it is fed to the ObjectId constructor —
an invalid id therefore raises and the request fails — and the employee
document is looked up by _id alone; the name is taken from the document
when one was found. -/
def mkEntry (db : DB) (r : AttendanceRec) : Except ErrResp RosterEntry :=
  if r.employee_id = "" then
    .ok ⟨r.id, r.employee_id, none, r.status, r.date, r.distance_m⟩
  else if isValidObjectId r.employee_id then
    .ok ⟨r.id, r.employee_id, (findEmployee db r.employee_id).map (·.name),
      r.status, r.date, r.distance_m⟩
  else .error ⟨500, "Internal Server Error"⟩

/-- Sequence a list of fallible steps, stopping at the first failure, as
the Python loop does when an exception escapes. -/
def mapE (f : α → Except ErrResp β) : List α → Except ErrResp (List β)
  | [] => .ok []
  | x :: xs =>
    match f x with
    | .error e => .error e
    | .ok y =>
      match mapE f xs with
      | .error e => .error e
      | .ok ys => .ok (y :: ys)

/-- GET /attendance/daily (attendance_daily in src/main.py): records of
the requested day, each joined with the employee name. -/
def attendance_daily (db : DB) (day : String) : Except ErrResp (List RosterEntry) :=
  mapE (mkEntry db) (db.attendance.filter (fun r => r.date == day))

/-- One element of the summary series: per-day tallies. -/
structure DayTally where
  date : String
  present : Nat
  absent : Nat
deriving DecidableEq

/-- Summary response of GET /attendance/summary. -/
structure Summary where
  present : Nat
  absent : Nat
  series : List DayTally
deriving DecidableEq

/-- Increment the counter named by the status inside a day tally; a
status outside the enum raises a KeyError in the Python dict access and
the request fails. -/
def bump (t : DayTally) (st : String) : Except ErrResp DayTally :=
  if st = "present" then .ok { t with present := t.present + 1 }
  else if st = "absent" then .ok { t with absent := t.absent + 1 }
  else .error ⟨500, "Internal Server Error"⟩

/-- setdefault plus increment on the by_date mapping, modelled as an
association list in insertion order. -/
def updateTally : List DayTally → String → String → Except ErrResp (List DayTally)
  | [], dt, st =>
    match bump ⟨dt, 0, 0⟩ st with
    | .error e => .error e
    | .ok t => .ok [t]
  | t :: rest, dt, st =>
    if t.date = dt then
      match bump t st with
      | .error e => .error e
      | .ok t2 => .ok (t2 :: rest)
    else
      match updateTally rest dt st with
      | .error e => .error e
      | .ok m => .ok (t :: m)

/-- Fold of the by_date loop over the fetched records. -/
def buildTallies : List AttendanceRec → List DayTally → Except ErrResp (List DayTally)
  | [], acc => .ok acc
  | r :: rs, acc =>
    match updateTally acc r.date r.status with
    | .error e => .error e
    | .ok m => buildTallies rs m

/-- Truthiness of an optional query string, as tested by the Python
condition on start and end. -/
def truthy (o : Option String) : Bool :=
  match o with
  | none => false
  | some s => s ≠ ""

/-- Date filter of the summary query: an inclusive lexical range applied
only when both bounds are truthy. -/
def dateInRange (start stop : Option String) (d : String) : Bool :=
  match start, stop with
  | some a, some b => if a ≠ "" ∧ b ≠ "" then a ≤ d && d ≤ b else true
  | _, _ => true

/-- Ordering of the summary series: ascending date, compared as the
sequence of characters (how sorted compares the date strings). -/
def dateAsc (a b : DayTally) : Prop := a.date.toList ≤ b.date.toList

instance : DecidableRel dateAsc :=
  fun a b => inferInstanceAs (Decidable (a.date.toList ≤ b.date.toList))

instance : IsTotal DayTally dateAsc := ⟨fun a b => le_total a.date.toList b.date.toList⟩

instance : IsTrans DayTally dateAsc := ⟨fun _ _ _ h h2 => le_trans h h2⟩

/-- GET /attendance/summary/{employee_id} (attendance_summary in
src/main.py): fetch the matching records, count present and absent,
tally per day and sort the series by date ascending. -/
def attendance_summary (db : DB) (eid : String) (start stop : Option String) :
    Except ErrResp Summary :=
  let docs := db.attendance.filter
    (fun r => r.employee_id == eid && dateInRange start stop r.date)
  let present := docs.countP (fun r => r.status == "present")
  let absent := docs.countP (fun r => r.status == "absent")
  match buildTallies docs [] with
  | .error e => .error e
  | .ok m => .ok ⟨present, absent, m.insertionSort dateAsc⟩

/-! Helper lemmas shared by several claim theorems. -/

lemma classify_present_iff (d r : ℝ) : classify d r = "present" ↔ d ≤ r := by
  by_cases h : d ≤ r
  · simp [classify, h]
  · simp only [classify, if_neg h]
    constructor
    · intro hc
      exact absurd hc (by decide)
    · intro hc
      exact absurd hc h

lemma classify_absent_iff (d r : ℝ) : classify d r = "absent" ↔ ¬ d ≤ r := by
  by_cases h : d ≤ r
  · simp only [classify, if_pos h]
    constructor
    · intro hc
      exact absurd hc (by decide)
    · intro hc
      exact absurd h hc
  · simp [classify, h]

/-- C2: the classification used when marking attendance yields present
exactly when the distance is at most the radius; in particular the
boundary distance equal to the radius is classified present. -/
theorem c2_classify_boundary (d r : ℝ) :
    (classify d r = "present" ↔ d ≤ r) ∧
    (classify d r = "absent" ↔ ¬ d ≤ r) ∧
    classify r r = "present" :=
  ⟨classify_present_iff d r, classify_absent_iff d r,
    (classify_present_iff r r).mpr le_rfl⟩

theorem c2_classify_boundary_witness :
    classify (3 : ℝ) 5 = "present" ∧ classify (7 : ℝ) 5 = "absent" ∧
    classify (5 : ℝ) 5 = "present" :=
  ⟨(c2_classify_boundary 3 5).1.mpr (by norm_num),
    (c2_classify_boundary 7 5).2.1.mpr (by norm_num),
    (c2_classify_boundary 5 5).2.2⟩

lemma sin_sq_radians_swap (x y : ℝ) :
    Real.sin (radians (x - y) / 2) ^ 2 = Real.sin (radians (y - x) / 2) ^ 2 := by
  have h : radians (x - y) / 2 = -(radians (y - x) / 2) := by
    unfold radians; ring
  rw [h, Real.sin_neg]; ring

/-- C8: the geofence distance function is symmetric in its two
coordinate pairs. -/
theorem c8_haversine_symm (lat1 lon1 lat2 lon2 : ℝ) :
    haversine_m lat1 lon1 lat2 lon2 = haversine_m lat2 lon2 lat1 lon1 := by
  have key : Real.sin (radians (lat2 - lat1) / 2) ^ 2 +
      Real.cos (radians lat1) * Real.cos (radians lat2) *
        Real.sin (radians (lon2 - lon1) / 2) ^ 2
      = Real.sin (radians (lat1 - lat2) / 2) ^ 2 +
      Real.cos (radians lat2) * Real.cos (radians lat1) *
        Real.sin (radians (lon1 - lon2) / 2) ^ 2 := by
    rw [sin_sq_radians_swap lat2 lat1, sin_sq_radians_swap lon2 lon1]; ring
  simp only [haversine_m]
  rw [key]

/-- C3: marking attendance with a malformed identifier fails with the
400 invalid-id error; with a well-formed identifier for which no active
employee exists it fails with the 404 not-found error. -/
theorem c3_mark_error_codes (cfg : Config) (db : DB) (today newId : String)
    (p : MarkPayload) :
    (isValidObjectId p.employee_id = false →
      mark_attendance cfg db today newId p = .error ⟨400, "Invalid employee id"⟩) ∧
    (isValidObjectId p.employee_id = true →
      findActiveEmployee db p.employee_id = none →
      mark_attendance cfg db today newId p = .error ⟨404, "Employee not found or inactive"⟩) := by
  constructor
  · intro hv
    unfold mark_attendance
    rw [if_neg (by simp [hv])]
  · intro hv hf
    unfold mark_attendance
    rw [if_pos (by simp [hv]), hf]

theorem c3_mark_error_codes_witness :
    mark_attendance ⟨0, 0, 200⟩ ⟨[], []⟩ "2024-01-01" "n1" ⟨"zz", none, none⟩
      = .error ⟨400, "Invalid employee id"⟩ ∧
    mark_attendance ⟨0, 0, 200⟩ ⟨[], []⟩ "2024-01-01" "n1"
      ⟨"0123456789abcdef01234567", none, none⟩
      = .error ⟨404, "Employee not found or inactive"⟩ :=
  ⟨(c3_mark_error_codes ⟨0, 0, 200⟩ ⟨[], []⟩ "2024-01-01" "n1"
      ⟨"zz", none, none⟩).1 (by decide),
    (c3_mark_error_codes ⟨0, 0, 200⟩ ⟨[], []⟩ "2024-01-01" "n1"
      ⟨"0123456789abcdef01234567", none, none⟩).2 (by decide) rfl⟩

lemma dateInRange_none (d : String) : dateInRange none none d = true := rfl

lemma dateInRange_of_not_truthy (start stop : Option String) (d : String)
    (h : ¬ (truthy start = true ∧ truthy stop = true)) :
    dateInRange start stop d = true := by
  match start, stop with
  | none, _ => rfl
  | some a, none => rfl
  | some a, some b =>
    show (if a ≠ "" ∧ b ≠ "" then decide (a ≤ d) && decide (d ≤ b) else true) = true
    rw [if_neg]
    intro ⟨ha, hb⟩
    exact h ⟨by simp [truthy, ha], by simp [truthy, hb]⟩

/-- C10: the summary applies its date filter only when both bounds are
truthy; otherwise the result is the same as with no bounds at all. -/
theorem c10_summary_range_truthy (db : DB) (eid : String) (start stop : Option String)
    (h : ¬ (truthy start = true ∧ truthy stop = true)) :
    attendance_summary db eid start stop = attendance_summary db eid none none := by
  unfold attendance_summary
  have hfil : db.attendance.filter
      (fun r => r.employee_id == eid && dateInRange start stop r.date)
      = db.attendance.filter
      (fun r => r.employee_id == eid && dateInRange none none r.date) := by
    apply List.filter_congr
    intro r _
    rw [dateInRange_of_not_truthy start stop r.date h, dateInRange_none]
  rw [hfil]

theorem c10_summary_range_truthy_witness :
    attendance_summary ⟨[], [⟨"a1", "e", "2024-01-02", "absent", none, none, none⟩]⟩
      "e" (some "2024-01-01") none
    = attendance_summary ⟨[], [⟨"a1", "e", "2024-01-02", "absent", none, none, none⟩]⟩
      "e" none none :=
  c10_summary_range_truthy _ "e" (some "2024-01-01") none (by decide)

lemma deactivateFirst_any_id (l : List Employee) (eid : String) :
    (deactivateFirst l eid).any (fun e => e.id == eid)
      = l.any (fun e => e.id == eid) := by
  induction l with
  | nil => rfl
  | cons e rest ih =>
    unfold deactivateFirst
    by_cases h : e.id == eid
    · simp [h]
    · simp only [if_neg h, List.any_cons, ih]

/-- C9: the remove operation matches on identifier existence only, not
on the active flag: soft-deleting an employee that exists but is already
inactive still succeeds, and succeeds again when repeated. -/
theorem c9_remove_idempotent (db : DB) (eid : String) (e : Employee)
    (hv : isValidObjectId eid = true)
    (he : e ∈ db.employees) (hid : e.id = eid) :
    ∃ db2, remove_employee db eid = .ok db2 ∧
      ∃ db3, remove_employee db2 eid = .ok db3 := by
  have hany : db.employees.any (fun e => e.id == eid) = true :=
    List.any_eq_true.mpr ⟨e, he, by simp [hid]⟩
  refine ⟨{ db with employees := deactivateFirst db.employees eid }, ?_, ?_⟩
  · unfold remove_employee
    rw [if_pos hv, if_pos hany]
  · refine ⟨⟨deactivateFirst (deactivateFirst db.employees eid) eid, db.attendance⟩, ?_⟩
    unfold remove_employee
    rw [if_pos hv, if_pos (by rw [deactivateFirst_any_id]; exact hany)]

theorem c9_remove_idempotent_witness :
    ∃ db2, remove_employee
        ⟨[⟨"0123456789abcdef01234567", "Ann", "a@x", none, none, false, 1⟩], []⟩
        "0123456789abcdef01234567" = .ok db2 ∧
      ∃ db3, remove_employee db2 "0123456789abcdef01234567" = .ok db3 :=
  c9_remove_idempotent _ _
    ⟨"0123456789abcdef01234567", "Ann", "a@x", none, none, false, 1⟩
    (by decide) (List.mem_singleton_self _) rfl

lemma evalGeofence_disabled (cfg : Config) (lat lng : Option ℝ)
    (h : lat = none ∨ lng = none ∨ (cfg.OFFICE_LAT = 0 ∧ cfg.OFFICE_LNG = 0)) :
    evalGeofence cfg lat lng = (none, "absent") := by
  match lat, lng with
  | none, _ => rfl
  | some la, none => rfl
  | some la, some ln =>
    rcases h with h | h | h
    · exact absurd h (by simp)
    · exact absurd h (by simp)
    · show (if cfg.OFFICE_LAT ≠ 0 ∨ cfg.OFFICE_LNG ≠ 0 then _ else _) = _
      rw [if_neg]
      push_neg
      exact ⟨h.1, h.2⟩

lemma evalGeofence_enabled (cfg : Config) (la ln : ℝ)
    (h : cfg.OFFICE_LAT ≠ 0 ∨ cfg.OFFICE_LNG ≠ 0) :
    evalGeofence cfg (some la) (some ln) =
      (some (haversine_m cfg.OFFICE_LAT cfg.OFFICE_LNG la ln),
        classify (haversine_m cfg.OFFICE_LAT cfg.OFFICE_LNG la ln) cfg.GEOFENCE_M) := by
  show (if cfg.OFFICE_LAT ≠ 0 ∨ cfg.OFFICE_LNG ≠ 0 then _ else _) = _
  rw [if_pos h]

lemma mark_attendance_ok (cfg : Config) (db : DB) (today newId : String)
    (p : MarkPayload) (att : AttendanceRec) (db2 : DB)
    (h : mark_attendance cfg db today newId p = .ok (att, db2)) :
    att = ⟨newId, p.employee_id, today, (evalGeofence cfg p.lat p.lng).2,
      p.lat, p.lng, (evalGeofence cfg p.lat p.lng).1⟩ := by
  unfold mark_attendance at h
  split at h
  · split at h
    · exact absurd h (by simp)
    · rw [Except.ok.injEq, Prod.mk.injEq] at h
      exact h.1.symm
  · exact absurd h (by simp)

/-- C1: a successful mark call records status absent with no distance
when a coordinate is missing or both office coordinates are zero, and
otherwise records the haversine distance from the office to the
submitted position, with status present exactly when that distance is
within the configured radius. -/
theorem c1_mark_geofence (cfg : Config) (db : DB) (today newId : String)
    (p : MarkPayload) (att : AttendanceRec) (db2 : DB)
    (h : mark_attendance cfg db today newId p = .ok (att, db2)) :
    ((p.lat = none ∨ p.lng = none ∨ (cfg.OFFICE_LAT = 0 ∧ cfg.OFFICE_LNG = 0)) →
      att.status = "absent" ∧ att.distance_m = none) ∧
    (∀ la ln, p.lat = some la → p.lng = some ln →
      (cfg.OFFICE_LAT ≠ 0 ∨ cfg.OFFICE_LNG ≠ 0) →
      att.distance_m = some (haversine_m cfg.OFFICE_LAT cfg.OFFICE_LNG la ln) ∧
      (att.status = "present" ↔
        haversine_m cfg.OFFICE_LAT cfg.OFFICE_LNG la ln ≤ cfg.GEOFENCE_M)) := by
  have hatt := mark_attendance_ok cfg db today newId p att db2 h
  constructor
  · intro hcase
    rw [hatt]
    simp only
    rw [evalGeofence_disabled cfg p.lat p.lng hcase]
    exact ⟨rfl, rfl⟩
  · intro la ln hla hln hcfg
    rw [hatt]
    simp only
    rw [hla, hln, evalGeofence_enabled cfg la ln hcfg]
    exact ⟨rfl, classify_present_iff _ _⟩

theorem c1_mark_geofence_witness :
    (⟨"a1", "0123456789abcdef01234567", "2024-01-01", "absent", none, none, none⟩
        : AttendanceRec).status = "absent" ∧
    (⟨"a1", "0123456789abcdef01234567", "2024-01-01", "absent", none, none, none⟩
        : AttendanceRec).distance_m = none :=
  (c1_mark_geofence ⟨0, 0, 200⟩
      ⟨[⟨"0123456789abcdef01234567", "Ann", "a@x", none, none, true, 1⟩], []⟩
      "2024-01-01" "a1" ⟨"0123456789abcdef01234567", none, none⟩
      ⟨"a1", "0123456789abcdef01234567", "2024-01-01", "absent", none, none, none⟩
      ⟨[⟨"0123456789abcdef01234567", "Ann", "a@x", none, none, true, 1⟩],
        [⟨"a1", "0123456789abcdef01234567", "2024-01-01", "absent", none, none, none⟩]⟩
      rfl).1 (Or.inl rfl)

lemma deactivateFirst_inactive (l : List Employee) (eid : String)
    (hnd : (l.map (·.id)).Nodup) :
    ∀ e ∈ deactivateFirst l eid, e.id = eid → e.is_active = false := by
  induction l with
  | nil => intro e he; exact absurd he (by simp [deactivateFirst])
  | cons e0 rest ih =>
    intro e he hid
    rw [List.map_cons, List.nodup_cons] at hnd
    unfold deactivateFirst at he
    by_cases h0 : e0.id == eid
    · rw [if_pos h0] at he
      rcases List.mem_cons.mp he with he | he
      · rw [he]
      · exfalso
        apply hnd.1
        rw [show e0.id = eid from by simpa using h0, ← hid]
        exact List.mem_map.mpr ⟨e, he, rfl⟩
    · rw [if_neg h0] at he
      rcases List.mem_cons.mp he with he | he
      · exact absurd (show (e0.id == eid) = true by rw [← he]; simp [hid]) h0
      · exact ih hnd.2 e he hid

lemma remove_employee_ok (db : DB) (eid : String) (db2 : DB)
    (h : remove_employee db eid = .ok db2) :
    isValidObjectId eid = true ∧ db2.employees = deactivateFirst db.employees eid := by
  unfold remove_employee at h
  split at h
  · split at h
    · rw [Except.ok.injEq] at h
      exact ⟨by assumption, by rw [← h]⟩
    · exact absurd h (by simp)
  · exact absurd h (by simp)

/-- C4: after a successful soft delete (over a store whose ids are
unique, as _id is a key), the employee appears in no listing and marking
attendance for that identifier fails with the 404 not-found error. -/
theorem c4_soft_delete_consequences (db : DB) (eid : String) (db2 : DB)
    (hnd : (db.employees.map (·.id)).Nodup)
    (h : remove_employee db eid = .ok db2) :
    (∀ q e, e ∈ list_employees db2 q → ¬ e.id = eid) ∧
    (∀ cfg today newId lat lng,
      mark_attendance cfg db2 today newId ⟨eid, lat, lng⟩ =
        .error ⟨404, "Employee not found or inactive"⟩) := by
  obtain ⟨hv, hemps⟩ := remove_employee_ok db eid db2 h
  have hkey : ∀ e ∈ db2.employees, e.id = eid → e.is_active = false := by
    rw [hemps]
    exact deactivateFirst_inactive db.employees eid hnd
  constructor
  · intro q e he hid
    obtain ⟨e0, he0, rfl⟩ := List.mem_map.mp he
    have hdocs : e0 ∈ (db2.employees.filter (empMatches q)).insertionSort createdDesc :=
      he0
    rw [List.mem_insertionSort] at hdocs
    have hact : e0.is_active = true := by
      have hm := (List.mem_filter.mp hdocs).2
      unfold empMatches at hm
      rw [Bool.and_eq_true] at hm
      exact hm.1
    have : e0.is_active = false := hkey e0 (List.mem_filter.mp hdocs).1 hid
    rw [hact] at this
    exact absurd this (by simp)
  · intro cfg today newId lat lng
    have hfind : findActiveEmployee db2 eid = none := by
      unfold findActiveEmployee
      rw [List.find?_eq_none]
      intro e he
      simp only [Bool.and_eq_true, beq_iff_eq, not_and]
      intro hid
      simp [hkey e he hid]
    exact (c3_mark_error_codes cfg db2 today newId ⟨eid, lat, lng⟩).2 hv hfind

theorem c4_soft_delete_consequences_witness :
    mark_attendance ⟨0, 0, 200⟩
      ⟨[⟨"0123456789abcdef01234567", "Ann", "a@x", none, none, false, 1⟩], []⟩
      "2024-01-02" "n1" ⟨"0123456789abcdef01234567", none, none⟩
      = .error ⟨404, "Employee not found or inactive"⟩ :=
  (c4_soft_delete_consequences
      ⟨[⟨"0123456789abcdef01234567", "Ann", "a@x", none, none, true, 1⟩], []⟩
      "0123456789abcdef01234567"
      ⟨[⟨"0123456789abcdef01234567", "Ann", "a@x", none, none, false, 1⟩], []⟩
      (by decide) rfl).2 ⟨0, 0, 200⟩ "2024-01-02" "n1" none none

lemma mapE_ok_mem (f : α → Except ErrResp β) (l : List α) (out : List β)
    (h : mapE f l = .ok out) : ∀ y ∈ out, ∃ x ∈ l, f x = .ok y := by
  induction l generalizing out with
  | nil =>
    unfold mapE at h
    rw [Except.ok.injEq] at h
    subst h
    intro y hy
    exact absurd hy (by simp)
  | cons x xs ih =>
    unfold mapE at h
    split at h
    next e heq => exact absurd h (by simp)
    next y heq =>
      split at h
      next e2 heq2 => exact absurd h (by simp)
      next ys heq3 =>
        rw [Except.ok.injEq] at h
        subst h
        intro z hz
        rcases List.mem_cons.mp hz with hz | hz
        · exact ⟨x, List.mem_cons_self x xs, by rw [← hz] at heq; exact heq⟩
        · obtain ⟨x2, hx2, hfx2⟩ := ih ys heq3 z hz
          exact ⟨x2, List.mem_cons_of_mem x hx2, hfx2⟩

lemma mkEntry_ok (db : DB) (r : AttendanceRec) (en : RosterEntry)
    (h : mkEntry db r = .ok en) :
    en.employee_id = r.employee_id ∧
    en.employee_name = (if r.employee_id = "" then none
      else (findEmployee db r.employee_id).map (·.name)) := by
  unfold mkEntry at h
  split at h
  next hc =>
    rw [Except.ok.injEq] at h
    subst h
    exact ⟨rfl, by rw [if_pos hc]⟩
  next hc =>
    split at h
    next hv =>
      rw [Except.ok.injEq] at h
      subst h
      exact ⟨rfl, by rw [if_neg hc]⟩
    next hv => exact absurd h (by simp)

/-- C5 (amended): every entry of a successful daily roster resolves its
employee name by point lookup on the record's employee identifier with
no filter on the active flag: the name is null exactly when no employee
document with that identifier exists (or the identifier is empty), and a
soft-deleted employee's name is still returned. -/
theorem c5_roster_name_resolution (db : DB) (day : String)
    (entries : List RosterEntry) (h : attendance_daily db day = .ok entries) :
    ∀ en ∈ entries, en.employee_name =
      (if en.employee_id = "" then none
        else (findEmployee db en.employee_id).map (·.name)) := by
  intro en hen
  obtain ⟨r, _, hok⟩ := mapE_ok_mem (mkEntry db) _ entries h en hen
  obtain ⟨hid, hname⟩ := mkEntry_ok db r en hok
  rw [hname, hid]

theorem c5_roster_counterexample :
    attendance_daily
      ⟨[⟨"0123456789abcdef01234567", "Ann", "a@x", none, none, false, 1⟩],
        [⟨"a1", "0123456789abcdef01234567", "2024-01-01", "absent", none, none, none⟩]⟩
      "2024-01-01"
      = .ok [⟨"a1", "0123456789abcdef01234567", some "Ann", "absent", "2024-01-01", none⟩] ∧
    ¬ (⟨"a1", "0123456789abcdef01234567", some "Ann", "absent", "2024-01-01", none⟩
        : RosterEntry).employee_name = none ∧
    findActiveEmployee
      ⟨[⟨"0123456789abcdef01234567", "Ann", "a@x", none, none, false, 1⟩],
        [⟨"a1", "0123456789abcdef01234567", "2024-01-01", "absent", none, none, none⟩]⟩
      "0123456789abcdef01234567" = none :=
  ⟨rfl, by simp, rfl⟩

theorem c5_roster_name_resolution_witness :
    (⟨"a1", "0123456789abcdef01234567", some "Ann", "absent", "2024-01-01", none⟩
      : RosterEntry).employee_name =
    (if ("0123456789abcdef01234567" : String) = "" then none
      else (findEmployee
        ⟨[⟨"0123456789abcdef01234567", "Ann", "a@x", none, none, true, 2⟩],
          [⟨"a1", "0123456789abcdef01234567", "2024-01-01", "absent", none, none, none⟩]⟩
        "0123456789abcdef01234567").map (·.name)) :=
  c5_roster_name_resolution
    ⟨[⟨"0123456789abcdef01234567", "Ann", "a@x", none, none, true, 2⟩],
      [⟨"a1", "0123456789abcdef01234567", "2024-01-01", "absent", none, none, none⟩]⟩
    "2024-01-01"
    [⟨"a1", "0123456789abcdef01234567", some "Ann", "absent", "2024-01-01", none⟩]
    rfl
    ⟨"a1", "0123456789abcdef01234567", some "Ann", "absent", "2024-01-01", none⟩
    (List.mem_singleton_self _)

lemma charMatch_eq_charEqCI (p c : Char) (hp : ¬ p = '.') :
    charMatch p c = charEqCI p c := by
  unfold charMatch charEqCI
  rw [show (p == '.') = false from beq_eq_false_iff_ne.mpr hp, Bool.false_or]

lemma matchHere_eq_isPrefOf (p : List Char) (hp : '.' ∉ p) :
    ∀ s, matchHere p s = isPrefOf p s := by
  induction p with
  | nil => intro s; cases s <;> rfl
  | cons a as ih =>
    intro s
    have ha : ¬ a = '.' := fun h => hp (by rw [← h]; exact List.mem_cons_self a as)
    cases s with
    | nil => rfl
    | cons b bs =>
      unfold matchHere isPrefOf
      rw [charMatch_eq_charEqCI a b ha,
        ih (fun h => hp (List.mem_cons_of_mem a h)) bs]

lemma searchIn_eq_isSubOf (p : List Char) (hp : '.' ∉ p) :
    ∀ s, searchIn p s = isSubOf p s := by
  intro s
  induction s with
  | nil => exact matchHere_eq_isPrefOf p hp []
  | cons c cs ih =>
    unfold searchIn isSubOf
    rw [matchHere_eq_isPrefOf p hp (c :: cs), ih]

lemma ciRegexMatch_eq_spec (q s : String) (hq : '.' ∉ q.toList) :
    ciRegexMatch q s = specSubstrCI s q := by
  unfold ciRegexMatch specSubstrCI
  exact searchIn_eq_isSubOf q.toList hq s.toList

lemma specSubstrCI_empty (s : String) : specSubstrCI s "" = true := by
  show isSubOf [] s.toList = true
  induction s.toList with
  | nil => rfl
  | cons c cs ih => rfl

lemma empMatches_eq_spec (q : String) (e : Employee) (hq : '.' ∉ q.toList) :
    empMatches (some q) e =
      (e.is_active && (specSubstrCI e.name q || specSubstrCI e.email q)) := by
  by_cases h : q = ""
  · subst h
    show (e.is_active && (if ("" : String) = "" then true
        else ciRegexMatch "" e.name || ciRegexMatch "" e.email))
      = (e.is_active && (specSubstrCI e.name "" || specSubstrCI e.email ""))
    rw [if_pos rfl, specSubstrCI_empty, specSubstrCI_empty, Bool.true_or]
  · show (e.is_active && (if q = "" then true
        else ciRegexMatch q e.name || ciRegexMatch q e.email))
      = (e.is_active && (specSubstrCI e.name q || specSubstrCI e.email q))
    rw [if_neg h, ciRegexMatch_eq_spec q e.name hq, ciRegexMatch_eq_spec q e.email hq]

/-- C6 (amended): the listing filter interprets the search term as a
case-insensitive regular expression, not a literal; for terms built of
literal characters only (free of every regex metacharacter), the result
is exactly the active employees whose name or email contains the term
as a case-insensitive substring, ordered by descending creation time,
shaped for output. -/
theorem c6_list_employees_search (db : DB) (q : String)
    (hmeta : ∀ c ∈ q.toList, isRegexMeta c = false) :
    List.Perm (listDocs db (some q))
      (db.employees.filter
        (fun e => e.is_active && (specSubstrCI e.name q || specSubstrCI e.email q))) ∧
    List.Pairwise createdDesc (listDocs db (some q)) ∧
    list_employees db (some q) = (listDocs db (some q)).map toOut := by
  have hq : '.' ∉ q.toList := fun hmem => by
    have := hmeta '.' hmem
    rw [show isRegexMeta '.' = true from rfl] at this
    exact absurd this (by decide)
  refine ⟨?_, ?_, rfl⟩
  · have hfil : db.employees.filter (empMatches (some q))
        = db.employees.filter
          (fun e => e.is_active && (specSubstrCI e.name q || specSubstrCI e.email q)) :=
      List.filter_congr (fun e _ => empMatches_eq_spec q e hq)
    rw [← hfil]
    exact List.perm_insertionSort createdDesc _
  · exact List.sorted_insertionSort createdDesc _

theorem c6_list_employees_counterexample :
    list_employees
      ⟨[⟨"0123456789abcdef01234567", "xyz", "x@x", none, none, true, 1⟩], []⟩
      (some "x.z")
      = [⟨"0123456789abcdef01234567", "xyz", "x@x", none, none, true⟩] ∧
    specSubstrCI "xyz" "x.z" = false ∧
    specSubstrCI "x@x" "x.z" = false :=
  ⟨rfl, rfl, rfl⟩

theorem c6_list_employees_search_witness :
    List.Perm
      (listDocs ⟨[⟨"0123456789abcdef01234567", "Ann", "a@x", none, none, true, 1⟩], []⟩
        (some "nn"))
      ((⟨[⟨"0123456789abcdef01234567", "Ann", "a@x", none, none, true, 1⟩], []⟩
          : DB).employees.filter
        (fun e => e.is_active && (specSubstrCI e.name "nn" || specSubstrCI e.email "nn"))) ∧
    List.Pairwise createdDesc
      (listDocs ⟨[⟨"0123456789abcdef01234567", "Ann", "a@x", none, none, true, 1⟩], []⟩
        (some "nn")) ∧
    list_employees ⟨[⟨"0123456789abcdef01234567", "Ann", "a@x", none, none, true, 1⟩], []⟩
        (some "nn")
      = (listDocs ⟨[⟨"0123456789abcdef01234567", "Ann", "a@x", none, none, true, 1⟩], []⟩
        (some "nn")).map toOut :=
  c6_list_employees_search
    ⟨[⟨"0123456789abcdef01234567", "Ann", "a@x", none, none, true, 1⟩], []⟩
    "nn" (by decide)

/-- Total of the present counters of a tally list. -/
def sumPresent (m : List DayTally) : Nat := (m.map (·.present)).sum

/-- Total of the absent counters of a tally list. -/
def sumAbsent (m : List DayTally) : Nat := (m.map (·.absent)).sum

/-- Dates of a tally list, in order. -/
def tallyDates (m : List DayTally) : List String := m.map (·.date)

lemma bump_ok (t : DayTally) (st : String) (t2 : DayTally)
    (h : bump t st = .ok t2) :
    t2.date = t.date ∧
    t2.present = t.present + (if st = "present" then 1 else 0) ∧
    t2.absent = t.absent + (if st = "absent" then 1 else 0) := by
  unfold bump at h
  split at h
  next hp =>
    rw [Except.ok.injEq] at h
    subst h
    refine ⟨rfl, ?_, ?_⟩
    · rw [if_pos hp]
    · rw [if_neg (show ¬st = "absent" by rw [hp]; decide)]
      rfl
  next hp =>
    split at h
    next ha =>
      rw [Except.ok.injEq] at h
      subst h
      exact ⟨rfl, by rw [if_neg hp]; rfl, by rw [if_pos ha]⟩
    next ha => exact absurd h (by simp)

lemma updateTally_ok (m : List DayTally) (dt st : String) (m2 : List DayTally)
    (h : updateTally m dt st = .ok m2) :
    sumPresent m2 = sumPresent m + (if st = "present" then 1 else 0) ∧
    sumAbsent m2 = sumAbsent m + (if st = "absent" then 1 else 0) ∧
    (tallyDates m2 = tallyDates m ∨
      (dt ∉ tallyDates m ∧ tallyDates m2 = tallyDates m ++ [dt])) := by
  induction m generalizing m2 with
  | nil =>
    unfold updateTally at h
    split at h
    next e heq => exact absurd h (by simp)
    next t heq =>
      rw [Except.ok.injEq] at h
      subst h
      obtain ⟨hd, hp, ha⟩ := bump_ok _ st t heq
      refine ⟨?_, ?_, Or.inr ⟨by simp [tallyDates], ?_⟩⟩
      · simp [sumPresent, hp]
      · simp [sumAbsent, ha]
      · simp [tallyDates, hd]
  | cons t rest ih =>
    unfold updateTally at h
    split at h
    next hdt =>
      split at h
      next e heq => exact absurd h (by simp)
      next t2 heq =>
        rw [Except.ok.injEq] at h
        subst h
        obtain ⟨hd, hp, ha⟩ := bump_ok t st t2 heq
        refine ⟨?_, ?_, Or.inl ?_⟩
        · simp only [sumPresent, List.map_cons, List.sum_cons, hp]
          omega
        · simp only [sumAbsent, List.map_cons, List.sum_cons, ha]
          omega
        · simp [tallyDates, hd]
    next hdt =>
      split at h
      next e heq => exact absurd h (by simp)
      next m3 heq =>
        rw [Except.ok.injEq] at h
        subst h
        obtain ⟨hp, ha, hdates⟩ := ih m3 heq
        refine ⟨?_, ?_, ?_⟩
        · simp only [sumPresent, List.map_cons, List.sum_cons] at hp ⊢
          omega
        · simp only [sumAbsent, List.map_cons, List.sum_cons] at ha ⊢
          omega
        · rcases hdates with hdates | ⟨hnot, hdates⟩
          · left
            simp only [tallyDates, List.map_cons] at hdates ⊢
            rw [hdates]
          · right
            constructor
            · intro hmem
              simp only [tallyDates, List.map_cons, List.mem_cons] at hmem
              rcases hmem with hmem | hmem
              · exact hdt hmem.symm
              · exact hnot hmem
            · simp only [tallyDates, List.map_cons] at hdates ⊢
              rw [hdates, List.cons_append]
  
lemma buildTallies_ok (docs : List AttendanceRec) (acc m : List DayTally)
    (h : buildTallies docs acc = .ok m) :
    sumPresent m = sumPresent acc + docs.countP (fun r => r.status == "present") ∧
    sumAbsent m = sumAbsent acc + docs.countP (fun r => r.status == "absent") ∧
    ((tallyDates acc).Nodup → (tallyDates m).Nodup) := by
  induction docs generalizing acc with
  | nil =>
    unfold buildTallies at h
    rw [Except.ok.injEq] at h
    subst h
    exact ⟨by simp, by simp, id⟩
  | cons r rs ih =>
    unfold buildTallies at h
    split at h
    next e heq => exact absurd h (by simp)
    next m1 heq =>
      obtain ⟨hp1, ha1, hd1⟩ := updateTally_ok acc r.date r.status m1 heq
      obtain ⟨hp2, ha2, hd2⟩ := ih m1 h
      have hcp : (if r.status = "present" then 1 else 0)
          = (if (r.status == "present") = true then 1 else 0) := by
        by_cases hs : r.status = "present" <;> simp [hs]
      have hca : (if r.status = "absent" then 1 else 0)
          = (if (r.status == "absent") = true then 1 else 0) := by
        by_cases hs : r.status = "absent" <;> simp [hs]
      refine ⟨?_, ?_, ?_⟩
      · rw [hp2, hp1, List.countP_cons, hcp]
        omega
      · rw [ha2, ha1, List.countP_cons, hca]
        omega
      · intro hnd
        apply hd2
        rcases hd1 with hd1 | ⟨hnot, hd1⟩
        · rw [hd1]
          exact hnd
        · rw [hd1, ← List.concat_eq_append]
          exact List.Nodup.concat hnot hnd

/-- C7: a successful per-employee summary has its series grouped by date
(each date occurs once) and sorted ascending by date, and its top-level
present and absent totals equal the sums of the per-day tallies. -/
theorem c7_summary_consistency (db : DB) (eid : String) (start stop : Option String)
    (s : Summary) (h : attendance_summary db eid start stop = .ok s) :
    List.Pairwise dateAsc s.series ∧
    (s.series.map (·.date)).Nodup ∧
    s.present = (s.series.map (·.present)).sum ∧
    s.absent = (s.series.map (·.absent)).sum := by
  simp only [attendance_summary] at h
  split at h
  next e heq => exact absurd h (by simp)
  next m heq =>
    rw [Except.ok.injEq] at h
    subst h
    obtain ⟨hp, ha, hnd⟩ := buildTallies_ok _ [] m heq
    have hperm : List.Perm (m.insertionSort dateAsc) m :=
      List.perm_insertionSort dateAsc m
    refine ⟨List.sorted_insertionSort dateAsc m, ?_, ?_, ?_⟩
    · exact ((hperm.map (·.date)).nodup_iff).mpr
        (show (m.map (·.date)).Nodup from hnd List.nodup_nil)
    · rw [show ((m.insertionSort dateAsc).map (·.present)).sum = sumPresent m from
        (hperm.map (·.present)).sum_eq]
      rw [hp]
      simp [sumPresent]
    · rw [show ((m.insertionSort dateAsc).map (·.absent)).sum = sumAbsent m from
        (hperm.map (·.absent)).sum_eq]
      rw [ha]
      simp [sumAbsent]

theorem c7_summary_consistency_witness :
    List.Pairwise dateAsc
      [⟨"2024-01-01", 2, 0⟩, (⟨"2024-01-02", 0, 1⟩ : DayTally)] ∧
    ([⟨"2024-01-01", 2, 0⟩, (⟨"2024-01-02", 0, 1⟩ : DayTally)].map (·.date)).Nodup ∧
    2 = ([⟨"2024-01-01", 2, 0⟩, (⟨"2024-01-02", 0, 1⟩ : DayTally)].map (·.present)).sum ∧
    1 = ([⟨"2024-01-01", 2, 0⟩, (⟨"2024-01-02", 0, 1⟩ : DayTally)].map (·.absent)).sum :=
  c7_summary_consistency
    ⟨[], [⟨"a1", "e", "2024-01-02", "absent", none, none, none⟩,
      ⟨"a2", "e", "2024-01-01", "present", none, none, none⟩,
      ⟨"a3", "e", "2024-01-01", "present", none, none, none⟩]⟩
    "e" none none
    ⟨2, 1, [⟨"2024-01-01", 2, 0⟩, ⟨"2024-01-02", 0, 1⟩]⟩
    rfl
